import Mathlib

/-
Verification of the railway-ts core library (Option and Result containers
plus the composition utilities) against its natural-language specification.

The embedding is shallow: each TypeScript function from src/option/option.ts,
src/result/result.ts, src/utils/pipe.ts (curry), src/utils/uncurry.ts and the
tupled/untupled modules is translated into an executable Lean definition.
JavaScript runtime values that matter to the claims (null, undefined, booleans,
numbers, strings, Error objects) are modelled by the inductive type JSValue.
A thunk that may throw, and a settled promise, are both modelled by
`Except JSValue JSValue`: `.ok v` is a normal return (resolution) with value v,
`.error e` is a raised (rejected) value e.
-/

namespace Railway

/-- Model of the JavaScript runtime values the claims mention: the two
nullish sentinels, booleans, numbers, strings, and Error objects (an Error
object is modelled by its message field). -/
inductive JSValue where
  | vNull
  | vUndefined
  | vBool (b : Bool)
  | vNum (n : Int)
  | vStr (s : String)
  | vError (message : String)
deriving DecidableEq, Repr

/-- Model of the JavaScript String(v) conversion, used by fromTry and
fromTryWithError for non-Error raised values. String(new Error(m)) renders
as "Error: " followed by the message. -/
def jsToString : JSValue → String
  | .vNull => "null"
  | .vUndefined => "undefined"
  | .vBool true => "true"
  | .vBool false => "false"
  | .vNum n => toString n
  | .vStr s => s
  | .vError m => "Error: " ++ m

/-- Model of the JavaScript test `v instanceof Error`. -/
def isErrorInstance : JSValue → Bool
  | .vError _ => true
  | _ => false

/-- Model of reading the .message field of an Error object; only used on
values for which isErrorInstance holds. -/
def errorMessage : JSValue → String
  | .vError m => m
  | _ => ""

/-- The Option container of src/option/option.ts: a tagged value with the
two variants some(value) and none(). The brand symbol of the source is a
forgery-resistance measure with no semantic content and is not modelled. -/
inductive Option (α : Type) where
  | some (value : α)
  | none
deriving DecidableEq, Repr

namespace Option

/-- isSome from src/option/option.ts: `return option.some`. -/
def isSome {α : Type} : Option α → Bool
  | .some _ => true
  | .none => false

/-- isNone from src/option/option.ts: `return !option.some`. -/
def isNone {α : Type} : Option α → Bool
  | .some _ => false
  | .none => true

/-- map from src/option/option.ts:
`option.some ? some(fn(option.value)) : none()`. -/
def map {α β : Type} (option : Option α) (fn : α → β) : Option β :=
  match option with
  | .some v => .some (fn v)
  | .none => .none

/-- flatMap from src/option/option.ts:
`option.some ? fn(option.value) : none()`. -/
def flatMap {α β : Type} (option : Option α) (fn : α → Option β) : Option β :=
  match option with
  | .some v => fn v
  | .none => .none

/-- filter from src/option/option.ts:
`option.some && predicate(option.value) ? option : none()`. -/
def filter {α : Type} (option : Option α) (predicate : α → Bool) : Option α :=
  match option with
  | .some v => if predicate v then option else .none
  | .none => .none

/-- unwrap from src/option/option.ts, lines 163-169. The source returns the
value on some and otherwise throws
`new Error(errorMsg || "Cannot unwrap a none Option")`; the throw is modelled
by the Except error channel carrying the message of the thrown Error. The
optional errorMsg parameter is modelled by an Option String, and the
JavaScript truthiness test `errorMsg ||` is modelled exactly: an absent
message and the (falsy) empty string both fall back to the default text. -/
def unwrap {α : Type} (option : Option α) (errorMsg : Option String) : Except String α :=
  match option with
  | .some v => .ok v
  | .none =>
      .error (match errorMsg with
        | .some s => if s = "" then "Cannot unwrap a none Option" else s
        | .none => "Cannot unwrap a none Option")

/-- unwrapOr from src/option/option.ts:
`option.some ? option.value : defaultValue`. -/
def unwrapOr {α : Type} (option : Option α) (defaultValue : α) : α :=
  match option with
  | .some v => v
  | .none => defaultValue

/-- unwrapOrElse from src/option/option.ts:
`option.some ? option.value : defaultFn()`. -/
def unwrapOrElse {α : Type} (option : Option α) (defaultFn : Unit → α) : α :=
  match option with
  | .some v => v
  | .none => defaultFn ()

/-- fromNullable from src/option/option.ts, lines 212-214:
`value === null || value === undefined ? none() : some(value)`. -/
def fromNullable (value : JSValue) : Option JSValue :=
  if value = .vNull ∨ value = .vUndefined then .none else .some value

end Option

/-- The Result container of src/result/result.ts: a tagged value with the
two variants ok(value) and err(error). The brand symbol is not modelled. -/
inductive Result (α ε : Type) where
  | ok (value : α)
  | err (error : ε)
deriving DecidableEq, Repr

namespace Result

/-- isOk from src/result/result.ts: `return result.ok`. -/
def isOk {α ε : Type} : Result α ε → Bool
  | .ok _ => true
  | .err _ => false

/-- isErr from src/result/result.ts: `return !result.ok`. -/
def isErr {α ε : Type} : Result α ε → Bool
  | .ok _ => false
  | .err _ => true

/-- map from src/result/result.ts:
`result.ok ? ok(fn(result.value)) : result`. -/
def map {α ε β : Type} (result : Result α ε) (fn : α → β) : Result β ε :=
  match result with
  | .ok v => .ok (fn v)
  | .err e => .err e

/-- mapErr from src/result/result.ts:
`result.ok ? result : err(fn(result.error))`. -/
def mapErr {α ε φ : Type} (result : Result α ε) (fn : ε → φ) : Result α φ :=
  match result with
  | .ok v => .ok v
  | .err e => .err (fn e)

/-- flatMap from src/result/result.ts:
`result.ok ? fn(result.value) : result`. -/
def flatMap {α ε β : Type} (result : Result α ε) (fn : α → Result β ε) : Result β ε :=
  match result with
  | .ok v => fn v
  | .err e => .err e

/-- filter from src/result/result.ts, lines 167-169:
`result.ok && predicate(result.value) ? result : err(error)`.
Note that an err input fails the `result.ok` test, so the branch taken is
`err(error)` with the replacement error, not the original one. -/
def filter {α ε : Type} (result : Result α ε) (predicate : α → Bool) (error : ε) : Result α ε :=
  match result with
  | .ok v => if predicate v then result else .err error
  | .err _ => .err error

/-- The loop body of combine, src/result/result.ts lines 319-328: values are
pushed in order until the first err, which is returned as-is. -/
def combineGo {α ε : Type} (values : List α) : List (Result α ε) → Result (List α) ε
  | [] => .ok values
  | .err e :: _ => .err e
  | .ok v :: rest => combineGo (values ++ [v]) rest

/-- combine from src/result/result.ts, lines 319-328 (the implementation
under the tuple-preserving overloads): starts from an empty values array. -/
def combine {α ε : Type} (results : List (Result α ε)) : Result (List α) ε :=
  combineGo [] results

/-- The loop body of combineAll, src/result/result.ts lines 418-431: every
value and every error is pushed in order; at the end
`errors.length > 0 ? err(errors) : ok(values)`. -/
def combineAllGo {α ε : Type} (errors : List ε) (values : List α) :
    List (Result α ε) → Result (List α) (List ε)
  | [] => if errors.length > 0 then .err errors else .ok values
  | .ok v :: rest => combineAllGo errors (values ++ [v]) rest
  | .err e :: rest => combineAllGo (errors ++ [e]) values rest

/-- combineAll from src/result/result.ts, lines 418-431: starts from empty
errors and values arrays. -/
def combineAll {α ε : Type} (results : List (Result α ε)) : Result (List α) (List ε) :=
  combineAllGo [] [] results

/-- Specification-side measurement: the success values of a list of Results,
in their original order. -/
def okValues {α ε : Type} : List (Result α ε) → List α
  | [] => []
  | .ok v :: rest => v :: okValues rest
  | .err _ :: rest => okValues rest

/-- Specification-side measurement: the error values of a list of Results,
in their original order. -/
def errValues {α ε : Type} : List (Result α ε) → List ε
  | [] => []
  | .ok _ :: rest => errValues rest
  | .err e :: rest => e :: errValues rest

/-- Specification-side measurement: the number of err elements in a list. -/
def countErrs {α ε : Type} : List (Result α ε) → Nat
  | [] => 0
  | .ok _ :: rest => countErrs rest
  | .err _ :: rest => countErrs rest + 1

/-- fromTry from src/result/result.ts, lines 542-548. The thunk outcome is
modelled by an Except: `.ok v` is a normal return, `.error e` a raised value.
The catch branch is
`err(error instanceof Error ? error.message : String(error))`, so the error
channel gets a string (modelled as a vStr value). -/
def fromTry (f : Except JSValue JSValue) : Result JSValue JSValue :=
  match f with
  | .ok v => .ok v
  | .error e => .err (.vStr (if isErrorInstance e then errorMessage e else jsToString e))

/-- fromTryWithError from src/result/result.ts, lines 564-570. The catch
branch is `err(error instanceof Error ? error : new Error(String(error)))`,
so the error channel gets the raised Error object itself, or a freshly
constructed Error around the String conversion of a non-Error raised value. -/
def fromTryWithError (f : Except JSValue JSValue) : Result JSValue JSValue :=
  match f with
  | .ok v => .ok v
  | .error e => .err (if isErrorInstance e then e else .vError (jsToString e))

/-- fromPromise from src/result/result.ts, lines 585-592. The settled promise
is modelled by an Except: `.ok v` resolution, `.error e` rejection. The
function takes no error-transforming parameter; its catch branch is
`err(error instanceof Error ? error.message : String(error))`, the same
string conversion as fromTry. -/
def fromPromise (promise : Except JSValue JSValue) : Result JSValue JSValue :=
  match promise with
  | .ok v => .ok v
  | .error e => .err (.vStr (if isErrorInstance e then errorMessage e else jsToString e))

/-- fromPromiseWithError from src/result/result.ts, lines 618-628. The
optional errorFn parameter defaults to `(error) => error as unknown as E`,
the identity cast; on rejection the result is `err(errorFn(error))`. The
optional parameter is modelled by an Option of a function. -/
def fromPromiseWithError (promise : Except JSValue JSValue)
    (errorFn : Option (JSValue → JSValue)) : Result JSValue JSValue :=
  match promise with
  | .ok v => .ok v
  | .error e =>
      .err (match errorFn with
        | .some fn => fn e
        | .none => e)

end Result

/-- The outcome of one call of the function that curry returns (the inner
function `curried` of src/utils/pipe.ts, lines 171-183): either the original
function has been invoked and produced a value, or a closure awaiting more
arguments has been returned. A closure is fully described by the argument
list it has accumulated so far. -/
inductive CallResult (V R : Type) where
  | closure (acc : List V)
  | value (r : R)
deriving DecidableEq, Repr

/-- The inner function `curried` of curry, src/utils/pipe.ts lines 174-182:
`if (args.length >= arity) return fn(...args);` else return a closure that,
when called with nextArgs, evaluates `curried(...args, ...nextArgs)`. The
wrapped N-ary JavaScript function is modelled as a function on argument
lists, and arity models fn.length. -/
def curried {V R : Type} (fn : List V → R) (arity : Nat) (args : List V) : CallResult V R :=
  if args.length ≥ arity then .value (fn args) else .closure args

/-- Calling a CallResult with further arguments. A closure with accumulated
args evaluates `curried(...args, ...nextArgs)`; a plain value is not callable
in JavaScript, which is modelled by the Except error channel. -/
def callWith {V R : Type} (fn : List V → R) (arity : Nat)
    (st : CallResult V R) (nextArgs : List V) : Except String (CallResult V R) :=
  match st with
  | .closure acc => .ok (curried fn arity (acc ++ nextArgs))
  | .value _ => .error "TypeError: result is not a function"

/-- One iteration of the loop inside the function that uncurry returns
(src/utils/uncurry.ts lines 60-69): `result = result(arg)` for a single
argument. -/
def uncurryStep {V R : Type} (fn : List V → R) (arity : Nat)
    (st : Except String (CallResult V R)) (arg : V) : Except String (CallResult V R) :=
  match st with
  | .error e => .error e
  | .ok st2 => callWith fn arity st2 [arg]

/-- The composite uncurry(curry(fn)) of src/utils/uncurry.ts applied to a
positional argument list: uncurry starts from the function curry returned
(a closure with no accumulated arguments) and applies the arguments to it
one at a time, left to right. -/
def uncurryCurried {V R : Type} (fn : List V → R) (arity : Nat)
    (args : List V) : Except String (CallResult V R) :=
  args.foldl (uncurryStep fn arity) (.ok (.closure []))

/-- A JavaScript tuple (array) passed as the single argument of a tupled
function, kept distinct from a positional argument list. -/
structure TupleArg (V : Type) where
  elems : List V
deriving DecidableEq, Repr

/-- tupled from the tupled module: `return fn(...args)` where args is the
single tuple argument, spread positionally into fn. -/
def tupled {V R : Type} (fn : List V → R) : TupleArg V → R :=
  fun args => fn args.elems

/-- untupled from the untupled module: `return fn(args)` where the positional
arguments args are packaged into one tuple. -/
def untupled {V R : Type} (fn : TupleArg V → R) : List V → R :=
  fun args => fn ⟨args⟩

/- Helper lemmas shared by the claim theorems. -/

/-- The combine loop over an all-ok list appends every value, in order, to
the accumulator. -/
theorem combineGo_allOk {α ε : Type} :
    ∀ (rs : List (Result α ε)) (acc : List α),
      (∀ r ∈ rs, Result.isOk r = true) →
      Result.combineGo acc rs = .ok (acc ++ Result.okValues rs) := by
  intro rs
  induction rs with
  | nil =>
      intro acc _
      simp [Result.combineGo, Result.okValues]
  | cons r rest ih =>
      intro acc h
      cases r with
      | err e =>
          have hh := h (.err e) (List.mem_cons_self _ _)
          simp [Result.isOk] at hh
      | ok v =>
          have hrest : ∀ x ∈ rest, Result.isOk x = true :=
            fun x hx => h x (List.mem_cons_of_mem _ hx)
          calc Result.combineGo acc (Result.ok v :: rest)
              = Result.combineGo (acc ++ [v]) rest := rfl
            _ = .ok ((acc ++ [v]) ++ Result.okValues rest) := ih (acc ++ [v]) hrest
            _ = .ok (acc ++ Result.okValues (Result.ok v :: rest)) := by
                  simp [Result.okValues, List.append_assoc]

/-- The combine loop returns the first err it meets, whatever follows it and
whatever was accumulated before. -/
theorem combineGo_firstErr {α ε : Type} :
    ∀ (pre : List (Result α ε)) (e : ε) (suf : List (Result α ε)) (acc : List α),
      (∀ r ∈ pre, Result.isOk r = true) →
      Result.combineGo acc (pre ++ .err e :: suf) = .err e := by
  intro pre
  induction pre with
  | nil =>
      intro e suf acc _
      rfl
  | cons r rest ih =>
      intro e suf acc h
      cases r with
      | err e2 =>
          have hh := h (.err e2) (List.mem_cons_self _ _)
          simp [Result.isOk] at hh
      | ok v =>
          have hrest : ∀ x ∈ rest, Result.isOk x = true :=
            fun x hx => h x (List.mem_cons_of_mem _ hx)
          exact ih e suf (acc ++ [v]) hrest

/-- Closed form of the combineAll loop: it ends with all errors, in order,
appended to the error accumulator, and all values appended likewise; the
error list decides the variant. -/
theorem combineAllGo_closed {α ε : Type} :
    ∀ (rs : List (Result α ε)) (es : List ε) (vs : List α),
      Result.combineAllGo es vs rs =
        if (es ++ Result.errValues rs).length > 0
        then .err (es ++ Result.errValues rs)
        else .ok (vs ++ Result.okValues rs) := by
  intro rs
  induction rs with
  | nil =>
      intro es vs
      simp [Result.combineAllGo, Result.errValues, Result.okValues]
  | cons r rest ih =>
      intro es vs
      cases r with
      | ok v =>
          calc Result.combineAllGo es vs (Result.ok v :: rest)
              = Result.combineAllGo es (vs ++ [v]) rest := rfl
            _ = _ := by
                  rw [ih es (vs ++ [v])]
                  simp [Result.errValues, Result.okValues, List.append_assoc]
      | err e =>
          calc Result.combineAllGo es vs (Result.err e :: rest)
              = Result.combineAllGo (es ++ [e]) vs rest := rfl
            _ = _ := by
                  rw [ih (es ++ [e]) vs]
                  simp [Result.errValues, Result.okValues, List.append_assoc]

/-- A list whose elements are all ok contributes no error values. -/
theorem errValues_nil_of_allOk {α ε : Type} :
    ∀ rs : List (Result α ε), (∀ r ∈ rs, Result.isOk r = true) →
      Result.errValues rs = [] := by
  intro rs
  induction rs with
  | nil => intro _; rfl
  | cons r rest ih =>
      intro h
      cases r with
      | err e =>
          have hh := h (.err e) (List.mem_cons_self _ _)
          simp [Result.isOk] at hh
      | ok v =>
          exact ih (fun x hx => h x (List.mem_cons_of_mem _ hx))

/-- A list containing an err element contributes at least one error value. -/
theorem errValues_ne_nil_of_mem_err {α ε : Type} :
    ∀ rs : List (Result α ε), (∃ r ∈ rs, Result.isErr r = true) →
      Result.errValues rs ≠ [] := by
  intro rs
  induction rs with
  | nil =>
      rintro ⟨r, hr, _⟩
      simp at hr
  | cons r rest ih =>
      rintro ⟨x, hx, hxerr⟩
      cases r with
      | err e => simp [Result.errValues]
      | ok v =>
          rcases List.mem_cons.mp hx with h1 | h1
          · rw [h1] at hxerr
            simp [Result.isErr] at hxerr
          · exact ih ⟨x, h1, hxerr⟩

/-- The error values collected from a list are as many as its err elements. -/
theorem errValues_length_eq_countErrs {α ε : Type} :
    ∀ rs : List (Result α ε), (Result.errValues rs).length = Result.countErrs rs := by
  intro rs
  induction rs with
  | nil => rfl
  | cons r rest ih =>
      cases r with
      | ok v => simpa [Result.errValues, Result.countErrs] using ih
      | err e => simpa [Result.errValues, Result.countErrs] using ih

/-- Applying the remaining arguments one at a time to a closure that still
awaits exactly that many arguments invokes the wrapped function on the full
argument list. -/
theorem foldl_uncurryStep_eval {V R : Type} (f : List V → R) (arity : Nat) :
    ∀ (rest acc : List V), rest ≠ [] → acc.length + rest.length = arity →
      rest.foldl (uncurryStep f arity) (.ok (.closure acc)) = .ok (.value (f (acc ++ rest))) := by
  intro rest
  induction rest with
  | nil =>
      intro acc h _
      exact absurd rfl h
  | cons a rest2 ih =>
      intro acc _ hlen
      rw [List.foldl_cons]
      have hstep : uncurryStep f arity (.ok (.closure acc)) a
          = .ok (curried f arity (acc ++ [a])) := rfl
      rw [hstep]
      cases rest2 with
      | nil =>
          have harity : (acc ++ [a]).length ≥ arity := by
            simp only [List.length_append, List.length_cons, List.length_nil] at hlen ⊢
            omega
          have hc : curried f arity (acc ++ [a]) = .value (f (acc ++ [a])) := by
            unfold curried
            rw [if_pos harity]
          rw [List.foldl_nil, hc]
      | cons b rest3 =>
          have hlt : ¬ ((acc ++ [a]).length ≥ arity) := by
            simp only [List.length_append, List.length_cons, List.length_nil] at hlen ⊢
            omega
          have hc : curried f arity (acc ++ [a]) = .closure (acc ++ [a]) := by
            unfold curried
            rw [if_neg hlt]
          rw [hc]
          have hrec := ih (acc ++ [a]) (by simp) (by
            simp only [List.length_append, List.length_cons, List.length_nil] at hlen ⊢
            omega)
          rw [hrec]
          simp [List.append_assoc]

/- Claim theorems. -/

/-- C1, counterexample: Result.filter does not pass an existing failure
through unchanged. At the concrete input err("original") with a predicate
that accepts everything and replacement error "replacement", the returned
Result is err("replacement"), which differs from err("original"). -/
theorem c1_filter_counterexample :
    Result.filter (.err "original" : Result Nat String) (fun _ => true) "replacement"
        = .err "replacement" ∧
    (Result.err "replacement" : Result Nat String) ≠ .err "original" :=
  ⟨rfl, by decide⟩

/-- C1 (amended): for an Ok input, filter keeps the value when the predicate
holds and otherwise produces Err of the supplied error; for an Err input it
produces Err of the supplied error as well, replacing the original error
value rather than passing it through. -/
theorem c1_filter_spec {α ε : Type} :
    (∀ (v : α) (p : α → Bool) (e : ε), p v = true → Result.filter (.ok v) p e = .ok v) ∧
    (∀ (v : α) (p : α → Bool) (e : ε), p v = false → Result.filter (.ok v) p e = .err e) ∧
    (∀ (e0 : ε) (p : α → Bool) (e : ε), Result.filter (.err e0 : Result α ε) p e = .err e) := by
  refine ⟨?_, ?_, fun e0 p e => rfl⟩
  · intro v p e hp
    simp [Result.filter, hp]
  · intro v p e hp
    simp [Result.filter, hp]

/-- C1 witness: the amended theorem applied at Ok 42 with a predicate that
holds there. -/
theorem c1_filter_spec_witness :
    Result.filter (.ok 42 : Result Nat String) (fun x => Nat.blt 40 x) "too small" = .ok 42 :=
  c1_filter_spec.1 42 (fun x => Nat.blt 40 x) "too small" rfl

/-- C2, counterexample: when the thunk raises an Error object with message
"boom", fromTry returns Err of the message string, not of the raised Error
object itself. -/
theorem c2_fromTry_counterexample :
    Result.fromTry (.error (.vError "boom")) = .err (.vStr "boom") ∧
    JSValue.vStr "boom" ≠ JSValue.vError "boom" :=
  ⟨rfl, by decide⟩

/-- C2 (amended): fromTry returns Ok of the returned value on normal return;
when the thunk raises v it returns Err of a string: the message of v when v
is an Error instance, and the String conversion of v otherwise. The
error-object-preserving behavior belongs to fromTryWithError instead. -/
theorem c2_fromTry_spec :
    (∀ v : JSValue, Result.fromTry (.ok v) = .ok v) ∧
    (∀ m : String, Result.fromTry (.error (.vError m)) = .err (.vStr m)) ∧
    (∀ v : JSValue, isErrorInstance v = false →
      Result.fromTry (.error v) = .err (.vStr (jsToString v))) := by
  refine ⟨fun v => rfl, fun m => rfl, ?_⟩
  intro v hv
  simp [Result.fromTry, hv]

/-- C2 witness: the amended theorem applied to a thunk raising the non-Error
value false, whose String conversion is "false". -/
theorem c2_fromTry_spec_witness :
    Result.fromTry (.error (.vBool false)) = .err (.vStr "false") :=
  c2_fromTry_spec.2.2 (.vBool false) rfl

/-- C3, counterexample: fromPromise takes no error-transforming parameter
and does not pass the raw rejection value through: rejecting with an Error
object whose message is "boom" yields Err of the string "boom", which
differs from the raw rejection value. -/
theorem c3_fromPromise_counterexample :
    Result.fromPromise (.error (.vError "boom")) = .err (.vStr "boom") ∧
    JSValue.vStr "boom" ≠ JSValue.vError "boom" :=
  ⟨rfl, by decide⟩

/-- C3 (amended): fromPromise takes no errorFn parameter; on settle-failure
it produces Err of a message string (the message of an Error instance, the
String conversion otherwise). The optional errorFn belongs to
fromPromiseWithError: there, on settle-failure with raw rejection v, the
result is Err(errorFn(v)), and an omitted errorFn defaults to the identity
cast, so the Err payload is the raw rejection value unchanged. -/
theorem c3_fromPromise_spec :
    (∀ v : JSValue, Result.fromPromise (.ok v) = .ok v) ∧
    (∀ m : String, Result.fromPromise (.error (.vError m)) = .err (.vStr m)) ∧
    (∀ v : JSValue, isErrorInstance v = false →
      Result.fromPromise (.error v) = .err (.vStr (jsToString v))) ∧
    (∀ (v : JSValue) (fn : Option (JSValue → JSValue)),
      Result.fromPromiseWithError (.ok v) fn = .ok v) ∧
    (∀ (v : JSValue) (g : JSValue → JSValue),
      Result.fromPromiseWithError (.error v) (.some g) = .err (g v)) ∧
    (∀ v : JSValue, Result.fromPromiseWithError (.error v) .none = .err v) := by
  refine ⟨fun v => rfl, fun m => rfl, ?_, fun v fn => ?_, fun v g => rfl, fun v => rfl⟩
  · intro v hv
    simp [Result.fromPromise, hv]
  · cases fn <;> rfl

/-- C3 witness: the amended theorem applied to a rejection with the
non-Error value null, whose String conversion is "null". -/
theorem c3_fromPromise_spec_witness :
    Result.fromPromise (.error .vNull) = .err (.vStr "null") :=
  c3_fromPromise_spec.2.2.1 .vNull rfl

/-- C4, counterexample: the supplied message is filtered through JavaScript
truthiness, so unwrapping none with the supplied empty-string message raises
the fixed default message, not the supplied message. -/
theorem c4_unwrap_counterexample :
    Option.unwrap (.none : Option JSValue) (.some "") = .error "Cannot unwrap a none Option" ∧
    "Cannot unwrap a none Option" ≠ "" :=
  ⟨rfl, by decide⟩

/-- C4 (amended): unwrap returns the contained value on some; on none it
raises an error carrying the supplied message when that message is nonempty,
and the fixed default message when the message is absent or empty (the
source tests the message for truthiness, so the empty string falls back to
the default). Every other Option operation is a total function; unwrap is
the only one modelled with an error channel, matching the absence of throw
anywhere else in the Option module. -/
theorem c4_unwrap_spec {α : Type} :
    (∀ (v : α) (msg : Option String), Option.unwrap (.some v) msg = .ok v) ∧
    (∀ s : String, s ≠ "" → Option.unwrap (.none : Option α) (.some s) = .error s) ∧
    (Option.unwrap (.none : Option α) .none = .error "Cannot unwrap a none Option") ∧
    (Option.unwrap (.none : Option α) (.some "") = .error "Cannot unwrap a none Option") := by
  refine ⟨fun v msg => rfl, ?_, rfl, rfl⟩
  intro s hs
  simp [Option.unwrap, hs]

/-- C4 witness: the amended theorem applied at none with the nonempty
message "missing". -/
theorem c4_unwrap_spec_witness :
    Option.unwrap (.none : Option Nat) (.some "missing") = .error "missing" :=
  c4_unwrap_spec.2.1 "missing" (by decide)

/-- C5: combine of the empty list is Ok of the empty list; when every
element is Ok, combine returns Ok of all success values in their original
order; and for any split of the input into an all-Ok prefix, an Err element
and an arbitrary suffix, combine returns that Err with its exact error value
(so with failures at positions i < j the error at position i is returned). -/
theorem c5_combine_spec {α ε : Type} :
    (Result.combine ([] : List (Result α ε)) = .ok []) ∧
    (∀ rs : List (Result α ε), (∀ r ∈ rs, Result.isOk r = true) →
      Result.combine rs = .ok (Result.okValues rs)) ∧
    (∀ (pre : List (Result α ε)) (e : ε) (suf : List (Result α ε)),
      (∀ r ∈ pre, Result.isOk r = true) →
      Result.combine (pre ++ .err e :: suf) = .err e) := by
  refine ⟨rfl, ?_, ?_⟩
  · intro rs h
    simpa [Result.combine] using combineGo_allOk rs [] h
  · intro pre e suf h
    exact combineGo_firstErr pre e suf [] h

/-- C5 witness: the theorem applied at a list with failures at positions 1
and 3 returns the error at position 1. -/
theorem c5_combine_spec_witness :
    Result.combine [Result.ok 1, Result.err "e1", Result.ok 3, Result.err "e2"]
        = (.err "e1" : Result (List Nat) String) :=
  (@c5_combine_spec Nat String).2.2 [Result.ok 1] "e1" [Result.ok 3, Result.err "e2"]
    (by decide)

/-- C6: combineAll of the empty list is Ok of the empty list; with zero Err
elements it returns Ok of all success values in order; and with at least one
Err element it returns Err of every error value in original input order,
whose length equals the number of Err elements of the input. -/
theorem c6_combineAll_spec {α ε : Type} :
    (Result.combineAll ([] : List (Result α ε)) = .ok []) ∧
    (∀ rs : List (Result α ε), (∀ r ∈ rs, Result.isOk r = true) →
      Result.combineAll rs = .ok (Result.okValues rs)) ∧
    (∀ rs : List (Result α ε), (∃ r ∈ rs, Result.isErr r = true) →
      Result.combineAll rs = .err (Result.errValues rs) ∧
      (Result.errValues rs).length = Result.countErrs rs) := by
  refine ⟨rfl, ?_, ?_⟩
  · intro rs h
    have hclosed := combineAllGo_closed rs [] []
    rw [errValues_nil_of_allOk rs h] at hclosed
    simpa [Result.combineAll] using hclosed
  · intro rs h
    have hne := errValues_ne_nil_of_mem_err rs h
    have hclosed := combineAllGo_closed rs [] []
    have hlen : (Result.errValues rs).length > 0 := List.length_pos.mpr hne
    constructor
    · rw [Result.combineAll, hclosed]
      simp [hlen]
    · exact errValues_length_eq_countErrs rs

/-- C6 witness: the theorem applied at a list with errors at positions 1 and
3 collects both errors in order. -/
theorem c6_combineAll_spec_witness :
    Result.combineAll [Result.ok 1, Result.err "e1", Result.ok 3, Result.err "e2"]
        = (.err ["e1", "e2"] : Result (List Nat) (List String)) :=
  ((@c6_combineAll_spec Nat String).2.2
    [Result.ok 1, Result.err "e1", Result.ok 3, Result.err "e2"] (by decide)).1

/-- C7: fromNullable returns none exactly on the values null and undefined
and some of the value on every other value, including the falsy values 0,
the empty string and false; and the some constructor always builds the
presence variant, so isSome holds of some of any payload. -/
theorem c7_fromNullable_spec :
    (∀ v : JSValue, Option.fromNullable v = .none ↔ (v = .vNull ∨ v = .vUndefined)) ∧
    (∀ v : JSValue, v ≠ .vNull → v ≠ .vUndefined → Option.fromNullable v = .some v) ∧
    (Option.fromNullable (.vNum 0) = .some (.vNum 0)
      ∧ Option.fromNullable (.vStr "") = .some (.vStr "")
      ∧ Option.fromNullable (.vBool false) = .some (.vBool false)) ∧
    (∀ v : JSValue, Option.isSome (.some v) = true) := by
  refine ⟨?_, ?_, ⟨by decide, by decide, by decide⟩, fun v => rfl⟩
  · intro v
    constructor
    · intro h
      by_contra hc
      push_neg at hc
      simp [Option.fromNullable, hc.1, hc.2] at h
    · intro h
      simp [Option.fromNullable, h]
  · intro v h1 h2
    simp [Option.fromNullable, h1, h2]

/-- C7 witness: the theorem applied at the falsy payload undefined shows
some still builds the presence variant, and at the falsy value false shows
fromNullable maps it to some. -/
theorem c7_fromNullable_spec_witness :
    Option.fromNullable (.vBool false) = .some (.vBool false) ∧
    Option.isSome (Option.some JSValue.vUndefined) = true :=
  ⟨c7_fromNullable_spec.2.1 (.vBool false) (by decide) (by decide),
   c7_fromNullable_spec.2.2.2 .vUndefined⟩

/-- C8: for an N-ary function with 2 ≤ N ≤ 5 and any argument list of
length N, applying uncurry of curry of the function to the arguments one at
a time invokes the original function on exactly those arguments, and
untupled of tupled of the function applied positionally equals the function
applied directly: both round trips are behaviorally the identity. -/
theorem c8_roundtrip {V R : Type} (n : Nat) (h2 : 2 ≤ n) (h5 : n ≤ 5)
    (f : List V → R) (args : List V) (hlen : args.length = n) :
    uncurryCurried f n args = .ok (.value (f args)) ∧
    untupled (tupled f) args = f args := by
  refine ⟨?_, rfl⟩
  have hne : args ≠ [] := by
    intro hnil
    rw [hnil] at hlen
    simp at hlen
    omega
  have h := foldl_uncurryStep_eval f n args [] hne (by simpa using hlen)
  simpa [uncurryCurried] using h

/-- C8 witness: the theorem applied to a binary addition function at the
argument list with entries 1 and 2. -/
theorem c8_roundtrip_witness :
    uncurryCurried (fun l : List Nat => l.foldr (fun a b => a + b) 0) 2 [1, 2]
        = .ok (.value 3) ∧
    untupled (tupled (fun l : List Nat => l.foldr (fun a b => a + b) 0)) [1, 2] = 3 :=
  c8_roundtrip 2 (by decide) (by decide)
    (fun l : List Nat => l.foldr (fun a b => a + b) 0) [1, 2] rfl

/-- C9: fromTryWithError returns Ok of the returned value on normal return;
when the thunk raises v it returns Err of v itself when v is an Error
instance, and Err of a newly constructed Error whose message is the String
conversion of v otherwise, so its error channel preserves the full raised
error object. -/
theorem c9_fromTryWithError_spec :
    (∀ v : JSValue, Result.fromTryWithError (.ok v) = .ok v) ∧
    (∀ v : JSValue, isErrorInstance v = true →
      Result.fromTryWithError (.error v) = .err v) ∧
    (∀ v : JSValue, isErrorInstance v = false →
      Result.fromTryWithError (.error v) = .err (.vError (jsToString v))) := by
  refine ⟨fun v => rfl, ?_, ?_⟩
  · intro v hv
    simp [Result.fromTryWithError, hv]
  · intro v hv
    simp [Result.fromTryWithError, hv]

/-- C9 witness: the theorem applied to a thunk raising the Error object with
message "boom" preserves the object, and to a thunk raising the non-Error
value 7 wraps it in a new Error. -/
theorem c9_fromTryWithError_spec_witness :
    Result.fromTryWithError (.error (.vError "boom")) = .err (.vError "boom") ∧
    Result.fromTryWithError (.error (.vNum 7)) = .err (.vError (jsToString (.vNum 7))) :=
  ⟨c9_fromTryWithError_spec.2.1 (.vError "boom") rfl,
   c9_fromTryWithError_spec.2.2 (.vNum 7) rfl⟩

/-- C10: the function returned by curry is not strictly unary: a call that
has accumulated at least the arity many arguments invokes the wrapped
function immediately; in particular for a binary function, one call with
both arguments returns the same invocation as two unary calls. -/
theorem c10_curry_multiarg {V R : Type} :
    (∀ (f : List V → R) (n : Nat) (args : List V), args.length ≥ n →
      curried f n args = .value (f args)) ∧
    (∀ (f : List V → R) (a b : V),
      curried f 2 [a, b] = .value (f [a, b]) ∧
      callWith f 2 (curried f 2 [a]) [b] = .ok (.value (f [a, b]))) := by
  constructor
  · intro f n args h
    unfold curried
    rw [if_pos h]
  · intro f a b
    constructor
    · simp [curried]
    · simp [callWith, curried]

/-- C10 witness: the theorem applied to a ternary-capable call of a curried
binary sum at three arguments invokes the function at once. -/
theorem c10_curry_multiarg_witness :
    curried (fun l : List Nat => l.foldr (fun a b => a + b) 0) 2 [1, 2, 3] = .value 6 :=
  (@c10_curry_multiarg Nat Nat).1 (fun l => l.foldr (fun a b => a + b) 0) 2 [1, 2, 3]
    (by decide)

end Railway
